import Mathlib

/-!
Shallow embedding of the `supersocket` client (SuperSocket class, its options
record and its connection/queue/chunking logic) and proofs of the spec claims.

The embedding follows the latest variant of the class in the repository
(the one carrying `_debug`, `_pingInterval` and the configurable reconnect
delay); the historical variant's `_reconnect` (which hard-codes its interval
to 1000 ms) is embedded separately as `reconnectV1`.

External collaborators (JSON.stringify, the AES transform of crypto-js, the
WHATWG URL parser, fetch, the ws transport) are modelled as inputs:
serialization and encryption are pluggable functions in `Env`, the URL parse
result is a structured `URLParts` value, the auth fetch outcome is an
`AuthOutcome`, and transport events are explicit state transitions.
-/

namespace SuperSocket

/-- A JS string, as the chunking code sees it: a list of UTF-16 code units,
each recorded by its UTF-8 byte width (`Buffer.from(str).length` sums the
widths; `substr` and `.length` count code units). -/
abbrev JStr := List Nat

/-- `Buffer.from(str).length`: the UTF-8 byte size of the string. -/
def byteLength (s : JStr) : Nat := s.sum

/-- The loop body of `_splitStringBySize`, one iteration per fuel unit:
`for (i = 0; i < inputString.length; i += maxSizeInBytes) chunks.push(substr(i, maxSizeInBytes))`.
Each iteration consumes at least one code unit when `0 < m`, so a fuel of
`s.length` runs the loop to completion (see `splitChunks`). -/
def splitChunksAux (m : Nat) : Nat → JStr → List JStr
  | _, [] => []
  | 0, _ :: _ => []
  | fuel + 1, c :: cs => (c :: cs).take m :: splitChunksAux m fuel ((c :: cs).drop m)

/-- The chunk list built by `_splitStringBySize`'s loop. The `m = 0` case
would not terminate in JS and is unreachable from `send` (a chunkSize of 0 is
falsy there); it is mapped to `[]`. -/
def splitChunks (m : Nat) (s : JStr) : List JStr :=
  if m = 0 then [] else splitChunksAux m s.length s

/-- `_splitStringBySize(inputString, maxSizeInKB)`: slices the string into
pieces of `maxSizeInKB * 1024` code units. -/
def _splitStringBySize (inputString : JStr) (maxSizeInKB : Nat) : List JStr :=
  splitChunks (maxSizeInKB * 1024) inputString

/-- What `this._client.send(...)` receives: either the (possibly encrypted)
serialized payload itself, or one chunk envelope
`JSON.stringify({chunk, index, chunkId, nbChunks})`. -/
inductive Frame where
  | plain (str : JStr)
  | chunkEnv (chunk : JStr) (index : Nat) (chunkId : Nat) (nbChunks : Nat)
deriving DecidableEq

/-- The `index` field of a chunk envelope (0 for a plain frame). -/
def Frame.idx : Frame → Nat
  | .plain _ => 0
  | .chunkEnv _ i _ _ => i

/-- An offline-queue entry `{ data, timestamp: Date.now() }`; payloads are
opaque JS objects, modelled by identifiers. -/
structure Entry where
  data : Nat
  timestamp : Nat
deriving DecidableEq

/-- `SuperSocketOptions`: a JS options object; a field that is `none` is a key
that is absent (`undefined`). `authenticate` records whether the auth
middleware is configured, `encryptKey` the configured AES key (by id). -/
structure SuperSocketOptions where
  reconnectDelay : Option Nat := none
  encryptKey : Option Nat := none
  connectionTimeout : Option Nat := none
  maxRetries : Option Nat := none
  debug : Option Bool := none
  disableReconnect : Option Bool := none
  chunkSize : Option Nat := none
  queryParams : Option (List (String × String)) := none
  pingInterval : Option Nat := none
  secureOnly : Option Bool := none
  authenticate : Option Bool := none
  offline : Option Bool := none
deriving DecidableEq

/-- The module-level default export of `types/supersocket.ts`. -/
def defaultOptions : SuperSocketOptions :=
  { reconnectDelay := some 1000
    connectionTimeout := some 10000
    secureOnly := some true
    maxRetries := some 10
    debug := some false
    disableReconnect := some false
    queryParams := some []
    offline := some true
    pingInterval := some 10000 }

/-- One key of `Object.assign(target, source)`: the source's key wins when
present. -/
def optAssign {β : Type} (target source : Option β) : Option β :=
  match source with
  | some v => some v
  | none => target

/-- `Object.assign(target, source)` over the options record (it also mutates
`target` in place; see `mergeOptions`). -/
def objectAssign (target source : SuperSocketOptions) : SuperSocketOptions :=
  { reconnectDelay := optAssign target.reconnectDelay source.reconnectDelay
    encryptKey := optAssign target.encryptKey source.encryptKey
    connectionTimeout := optAssign target.connectionTimeout source.connectionTimeout
    maxRetries := optAssign target.maxRetries source.maxRetries
    debug := optAssign target.debug source.debug
    disableReconnect := optAssign target.disableReconnect source.disableReconnect
    chunkSize := optAssign target.chunkSize source.chunkSize
    queryParams := optAssign target.queryParams source.queryParams
    pingInterval := optAssign target.pingInterval source.pingInterval
    secureOnly := optAssign target.secureOnly source.secureOnly
    authenticate := optAssign target.authenticate source.authenticate
    offline := optAssign target.offline source.offline }

/-- The mutable module state: the shared `defaultOptions` object imported by
the class. -/
structure ModuleState where
  defaults : SuperSocketOptions
deriving DecidableEq

/-- `this._options = Object.assign(defaultOptions, options)`: returns the
instance's effective options and the module state afterwards. `Object.assign`
mutates its first argument, so the module-level defaults object now holds the
merged record (and `this._options` aliases it). -/
def mergeOptions (m : ModuleState) (options : SuperSocketOptions) :
    SuperSocketOptions × ModuleState :=
  let merged := objectAssign m.defaults options
  (merged, ⟨merged⟩)

/-- The transport handle (`ws` WebSocket):
readyState 0 CONNECTING, 1 OPEN, 2 CLOSING, 3 CLOSED. -/
structure WSClient where
  readyState : Nat
deriving DecidableEq

/-- The fields of a SuperSocket instance, plus observation logs: `frames` is
the sequence of messages handed to `this._client.send`, `dispatched` the
sequence of payloads that took the open-socket send path, `connectAttempts`
the number of transport handles created. `reconnectInterval` and
`pingInterval` hold the period of the scheduled interval timer when one is
live; `timeoutPending` records the `setTimeout` armed by `_connect` (its
handle is never stored, so it is never cleared before firing). -/
structure SState where
  client : Option WSClient := none
  url : String := ""
  lockConnect : Bool := false
  lockReConnect : Bool := false
  totalRetry : Nat := 0
  queue : List Entry := []
  reconnectInterval : Option Nat := none
  pingInterval : Option Nat := none
  timeoutPending : Bool := false
  options : SuperSocketOptions
  frames : List Frame := []
  dispatched : List Nat := []
  connectAttempts : Nat := 0
deriving DecidableEq

/-- `this._client?.readyState`. -/
def readyState (s : SState) : Option Nat := s.client.map (·.readyState)

/-- External pure collaborators of `send`: `JSON.stringify` on payload objects
and `AES.encrypt(str, key).toString()` of crypto-js. -/
structure Env where
  stringify : Nat → JStr
  aesEncrypt : Nat → JStr → JStr

/-- The serialized, post-cipher wire string of a payload:
`str = JSON.stringify(data)`, then `AES.encrypt(str, key)` when an
`encryptKey` is configured. -/
def serializePayload (env : Env) (opts : SuperSocketOptions) (data : Nat) : JStr :=
  match opts.encryptKey with
  | some k => env.aesEncrypt k (env.stringify data)
  | none => env.stringify data

/-- `send(data)`. Open socket (`readyState === 1`): serialize, optionally
encrypt, then either send as a single frame (no `chunkSize`, chunkSize 0 —
falsy — or `chunkSize >= sizeInKB`, i.e. `sizeInBytes ≤ chunkSize * 1024`) or
split into chunk envelopes sharing a fresh `chunkId` (modelled by the current
`Date.now()` value `now`). Otherwise: push `{data, timestamp: Date.now()}`
onto the offline queue when `options.offline` is truthy, else drop. -/
def send (env : Env) (now : Nat) (data : Nat) (s : SState) : SState :=
  match s.client with
  | some c =>
    if c.readyState = 1 then
      let str := serializePayload env s.options data
      let sizeInBytes := byteLength str
      match s.options.chunkSize with
      | none => { s with frames := s.frames ++ [.plain str],
                         dispatched := s.dispatched ++ [data] }
      | some ck =>
        if ck = 0 then
          { s with frames := s.frames ++ [.plain str],
                   dispatched := s.dispatched ++ [data] }
        else if sizeInBytes ≤ ck * 1024 then
          { s with frames := s.frames ++ [.plain str],
                   dispatched := s.dispatched ++ [data] }
        else
          let chunks := _splitStringBySize str ck
          let nbChunks := chunks.length
          { s with
              frames := s.frames ++
                chunks.enum.map (fun p => Frame.chunkEnv p.2 p.1 now nbChunks),
              dispatched := s.dispatched ++ [data] }
    else
      if s.options.offline = some true then
        { s with queue := s.queue ++ [⟨data, now⟩] }
      else s
  | none =>
    if s.options.offline = some true then
      { s with queue := s.queue ++ [⟨data, now⟩] }
    else s

/-- The descending branch of V8's CountAndMakeRun for the flush comparator
`(a, b) => a.timestamp > b.timestamp ? 1 : -1`: the run extends while the
comparator stays negative, i.e. while the next entry's timestamp is ≤ the
previous one's (ties included). Returns the maximal such run after `prev`
and the remainder. -/
def descRun (prev : Entry) : List Entry → List Entry × List Entry
  | [] => ([], [])
  | x :: xs =>
    if x.timestamp ≤ prev.timestamp then
      let p := descRun x xs
      (x :: p.1, p.2)
    else ([], x :: xs)

/-- The ascending branch of CountAndMakeRun: the run extends while the
comparator is non-negative, which for this comparator means the next
timestamp is strictly greater. -/
def ascRun (prev : Entry) : List Entry → List Entry × List Entry
  | [] => ([], [])
  | x :: xs =>
    if prev.timestamp < x.timestamp then
      let p := ascRun x xs
      (x :: p.1, p.2)
    else ([], x :: xs)

/-- V8's binary insertion of a pivot into the sorted prefix, for this
comparator: the search moves left exactly when `cmp(pivot, a[mid]) < 0`,
i.e. when the pivot's timestamp is ≤ the probed one, so on a sorted prefix
the pivot lands at the lower bound — BEFORE every entry of equal timestamp. -/
def insertBeforeTs (l : List Entry) (e : Entry) : List Entry :=
  match l with
  | [] => [e]
  | x :: xs =>
    if e.timestamp ≤ x.timestamp then e :: x :: xs
    else x :: insertBeforeTs xs e

/-- `this._queue.sort((a, b) => a.timestamp > b.timestamp ? 1 : -1)`.
The comparator never returns 0 — for equal timestamps it returns -1 in both
argument orders — so it is not a consistent comparator and ECMA-262 leaves
the resulting order implementation-defined. This models what the library's
runtime (Node, hence V8) actually does for arrays below TimSort's 64-element
merge threshold: one initial run is detected — and REVERSED when the first
comparison is negative, i.e. when the second timestamp is ≤ the first — and
every remaining element is binary-inserted, landing before equal-timestamp
entries. Equal timestamps therefore come out in reverse insertion order. -/
def sortQueue (q : List Entry) : List Entry :=
  match q with
  | [] => []
  | [e] => [e]
  | e0 :: e1 :: rest =>
    if e1.timestamp ≤ e0.timestamp then
      let p := descRun e1 rest
      p.2.foldl insertBeforeTs (e0 :: e1 :: p.1).reverse
    else
      let p := ascRun e1 rest
      p.2.foldl insertBeforeTs (e0 :: e1 :: p.1)

/-- `_connect`: a no-op while `_lockConnect` is held; otherwise increments the
retry counter, takes the lock, creates a fresh transport handle (CONNECTING),
registers the listeners, arms the connection-timeout `setTimeout` (whose
handle is never stored) and starts the ping `setInterval`. -/
def _connect (s : SState) : SState :=
  if s.lockConnect then s
  else
    { s with
        totalRetry := s.totalRetry + 1
        lockConnect := true
        client := some ⟨0⟩
        connectAttempts := s.connectAttempts + 1
        timeoutPending := true
        pingInterval := some (s.options.pingInterval.getD 0) }

/-- `_onopen`: clears both locks, resets the retry counter, clears the
reconnect interval, and — when the queue is non-empty — sorts the queue in
place, iterates the snapshot through `send`, then assigns `this._queue = []`
(discarding anything the iteration pushed onto the same array). -/
def _onopen (env : Env) (now : Nat) (s : SState) : SState :=
  let s1 := { s with lockConnect := false, lockReConnect := false,
                     totalRetry := 0, reconnectInterval := none }
  if s1.queue = [] then s1
  else
    let sorted := sortQueue s1.queue
    let s2 := sorted.foldl (fun st m => send env now m.data st)
      { s1 with queue := sorted }
    { s2 with queue := [] }

/-- `_reconnect` (current variant): releases the connect lock and schedules a
repeating timer with period `this._options.reconnectDelay`. -/
def _reconnect (s : SState) : SState :=
  { s with lockConnect := false,
           reconnectInterval := some (s.options.reconnectDelay.getD 0) }

/-- `_reconnect` of the historical variant of the class: the `setInterval`
period is the literal `1000`, not the configured `reconnectDelay`. -/
def reconnectV1 (s : SState) : SState :=
  { s with lockConnect := false, reconnectInterval := some 1000 }

/-- One tick of the reconnect interval:
`if (this._totalRetry <= (this._options.maxRetries || 0)) this._connect()`,
otherwise both the reconnect interval and the ping interval are cleared
permanently. -/
def reconnectTick (s : SState) : SState :=
  if s.totalRetry ≤ s.options.maxRetries.getD 0 then _connect s
  else { s with reconnectInterval := none, pingInterval := none }

/-- `_onclose`: releases the connect lock, calls the user callback, and —
unless reconnection is disabled, a reconnect loop is already running, or the
transport is not CLOSED (3) — takes the reconnect lock and starts
`_reconnect`. -/
def _onclose (s : SState) : SState :=
  let s1 := { s with lockConnect := false }
  if ¬(s1.options.disableReconnect = some true) ∧ s1.lockReConnect = false ∧
      readyState s1 = some 3 then
    _reconnect { s1 with lockReConnect := true }
  else s1

/-- `_disconnect(code = 1000, reason)`: a no-op without a client; otherwise
`this._client.close(code, reason)` (the ws close request moves a non-CLOSED
socket to CLOSING) and a synthesized close event through `_onclose`. -/
def _disconnect (s : SState) : SState :=
  match s.client with
  | none => s
  | some c =>
    let c' : WSClient := if c.readyState = 3 then c else ⟨2⟩
    _onclose { s with client := some c' }

/-- `_onError`: releases the connect lock, force-disconnects with the error
reason, best-effort forwards the error (external fetch, no state effect), and
— same gating as `_onclose` — starts the reconnect loop when eligible. -/
def _onError (s : SState) : SState :=
  let s2 := _disconnect { s with lockConnect := false }
  if ¬(s2.options.disableReconnect = some true) ∧ s2.lockReConnect = false ∧
      readyState s2 = some 3 then
    _reconnect { s2 with lockReConnect := true }
  else s2

/-- The connection-timeout `setTimeout` armed by `_connect` fires (consuming
itself): only when the socket is still CONNECTING (0) and no reconnect loop is
running does it clear both intervals and route a `timeout` error through
`_onError`; otherwise it does nothing. -/
def connectionTimeoutFire (s : SState) : SState :=
  let s0 := { s with timeoutPending := false }
  if readyState s = some 0 ∧ s.lockReConnect = false then
    _onError { s0 with reconnectInterval := none, pingInterval := none }
  else s0

/-- A transport-side readyState change (an external event of the ws handle). -/
def setReadyState (rs : Nat) (s : SState) : SState :=
  { s with client := s.client.map (fun _ => ⟨rs⟩) }

/-- The result of `new URL(url)` for a websocket URL: `origin` below renders
the WHATWG origin `scheme://host[:port]` (the port being `none` once a default
port is normalized away); `path`, `query` and `fragment` are the parts the
constructor never reads. `scheme` is stored without the trailing colon of
`protocol`. -/
structure URLParts where
  scheme : String
  host : String
  port : Option Nat := none
  path : String := ""
  query : Option String := none
  fragment : Option String := none
deriving DecidableEq

/-- `valid.origin`. -/
def origin (u : URLParts) : String :=
  u.scheme ++ "://" ++ u.host ++
    (match u.port with
     | some p => ":" ++ toString p
     | none => "")

/-- The tail of the query-parameter loop: every key after the first is
appended as `&key=value`. -/
def appendParamsRest (acc : String) : List (String × String) → String
  | [] => acc
  | kv :: rest => appendParamsRest (acc ++ "&" ++ kv.1 ++ "=" ++ kv.2) rest

/-- The constructor's query-parameter loop over `Object.keys(queryParams)`
(insertion order): the first key is appended as `?key=value`, the rest as
`&key=value`; nothing is appended when the map is empty. -/
def appendParams (hostname : String) : List (String × String) → String
  | [] => hostname
  | kv :: rest => appendParamsRest (hostname ++ "?" ++ kv.1 ++ "=" ++ kv.2) rest

/-- The serialized query string as the claim words it:
`?k1=v1&k2=v2...`, empty for no parameters. -/
def querySerializedSpec (qp : List (String × String)) : String :=
  match qp with
  | [] => ""
  | kv :: rest =>
    "?" ++ kv.1 ++ "=" ++ kv.2 ++
      String.join (rest.map (fun kv2 => "&" ++ kv2.1 ++ "=" ++ kv2.2))

/-- Outcome of the auth `fetch`: the promise resolves with a response status,
or rejects. -/
inductive AuthOutcome where
  | resolved (status : Nat)
  | rejected
deriving DecidableEq

/-- The constructor. Merges the options into the shared defaults object,
validates the parsed URL (`parsed = none` is an invalid base URL), enforces
`secureOnly` (`valid.protocol !== "wss:"`), composes `this._url` from
`valid.origin` plus the query parameters, and then gates on authentication:
with `authenticate` configured, only a resolved status of exactly 200 reaches
`_connect()`; any other status or a rejected call just logs and stops.
Without `authenticate`, `_connect()` runs directly. Returns the instance
state and the module state left behind. -/
def construct (m : ModuleState) (parsed : Option URLParts)
    (options : SuperSocketOptions) (auth : AuthOutcome) :
    SState × ModuleState :=
  let (opts, m') := mergeOptions m options
  match parsed with
  | none => ({ options := opts }, m')
  | some u =>
    if opts.secureOnly = some true ∧ u.scheme ≠ "wss" then
      ({ options := opts }, m')
    else
      let base : SState :=
        { options := opts
          url := appendParams (origin u) (opts.queryParams.getD []) }
      if opts.authenticate = some true then
        match auth with
        | .resolved status =>
          if status = 200 then (_connect base, m') else (base, m')
        | .rejected => (base, m')
      else (_connect base, m')

theorem descRun_split (prev : Entry) (l : List Entry) :
    (descRun prev l).1 ++ (descRun prev l).2 = l := by
  induction l generalizing prev with
  | nil => simp [descRun]
  | cons x xs ih =>
    simp only [descRun]
    by_cases h : x.timestamp ≤ prev.timestamp
    · rw [if_pos h]
      simpa using ih x
    · rw [if_neg h]
      rfl

theorem ascRun_split (prev : Entry) (l : List Entry) :
    (ascRun prev l).1 ++ (ascRun prev l).2 = l := by
  induction l generalizing prev with
  | nil => simp [ascRun]
  | cons x xs ih =>
    simp only [ascRun]
    by_cases h : prev.timestamp < x.timestamp
    · rw [if_pos h]
      simpa using ih x
    · rw [if_neg h]
      rfl

theorem descRun_chain (prev : Entry) (l : List Entry) :
    List.Chain (fun a b => b.timestamp ≤ a.timestamp) prev (descRun prev l).1 := by
  induction l generalizing prev with
  | nil => simp [descRun]
  | cons x xs ih =>
    simp only [descRun]
    by_cases h : x.timestamp ≤ prev.timestamp
    · rw [if_pos h]
      exact List.Chain.cons h (ih x)
    · rw [if_neg h]
      exact List.Chain.nil

theorem ascRun_chain (prev : Entry) (l : List Entry) :
    List.Chain (fun a b => a.timestamp < b.timestamp) prev (ascRun prev l).1 := by
  induction l generalizing prev with
  | nil => simp [ascRun]
  | cons x xs ih =>
    simp only [ascRun]
    by_cases h : prev.timestamp < x.timestamp
    · rw [if_pos h]
      exact List.Chain.cons h (ih x)
    · rw [if_neg h]
      exact List.Chain.nil

theorem chain_pairwise (r : Entry → Entry → Prop)
    (htr : ∀ a b c, r a b → r b c → r a c) (prev : Entry) (l : List Entry)
    (h : List.Chain r prev l) : (prev :: l).Pairwise r := by
  induction l generalizing prev with
  | nil => simp
  | cons x xs ih =>
    rw [List.chain_cons] at h
    obtain ⟨h1, h2⟩ := h
    have hp := ih x h2
    rw [List.pairwise_cons]
    refine ⟨?_, hp⟩
    intro b hb
    rcases List.mem_cons.mp hb with rfl | hbm
    · exact h1
    · exact htr _ _ _ h1 ((List.pairwise_cons.mp hp).1 b hbm)

theorem insertBeforeTs_perm (l : List Entry) (e : Entry) :
    (insertBeforeTs l e).Perm (e :: l) := by
  induction l with
  | nil => simp [insertBeforeTs]
  | cons x xs ih =>
    simp only [insertBeforeTs]
    by_cases h : e.timestamp ≤ x.timestamp
    · rw [if_pos h]
    · rw [if_neg h]
      exact (List.Perm.cons x ih).trans (List.Perm.swap e x xs)

theorem pairwise_insertBeforeTs (e : Entry) {l : List Entry}
    (h : l.Pairwise (fun a b => a.timestamp ≤ b.timestamp)) :
    (insertBeforeTs l e).Pairwise (fun a b => a.timestamp ≤ b.timestamp) := by
  induction l with
  | nil => simp [insertBeforeTs]
  | cons x xs ih =>
    rw [List.pairwise_cons] at h
    obtain ⟨hx, hxs⟩ := h
    simp only [insertBeforeTs]
    by_cases hc : e.timestamp ≤ x.timestamp
    · rw [if_pos hc, List.pairwise_cons]
      refine ⟨?_, List.pairwise_cons.mpr ⟨hx, hxs⟩⟩
      intro b hb
      rcases List.mem_cons.mp hb with rfl | h2
      · exact hc
      · exact le_trans hc (hx b h2)
    · rw [if_neg hc, List.pairwise_cons]
      push_neg at hc
      refine ⟨?_, ih hxs⟩
      intro b hb
      have hb' := (insertBeforeTs_perm xs e).mem_iff.mp hb
      rcases List.mem_cons.mp hb' with rfl | h2
      · exact le_of_lt hc
      · exact hx b h2

theorem foldl_insertBeforeTs_perm (q : List Entry) :
    ∀ acc : List Entry, (q.foldl insertBeforeTs acc).Perm (acc ++ q) := by
  induction q with
  | nil => intro acc; simp
  | cons e q ih =>
    intro acc
    simp only [List.foldl_cons]
    refine (ih (insertBeforeTs acc e)).trans ?_
    refine ((insertBeforeTs_perm acc e).append_right q).trans ?_
    refine ((List.perm_append_singleton e acc).symm.append_right q).trans ?_
    simp [List.append_assoc]

theorem foldl_insertBeforeTs_pairwise (q : List Entry) :
    ∀ acc : List Entry,
      acc.Pairwise (fun a b => a.timestamp ≤ b.timestamp) →
      (q.foldl insertBeforeTs acc).Pairwise
        (fun a b => a.timestamp ≤ b.timestamp) := by
  induction q with
  | nil => intro acc hacc; simpa using hacc
  | cons e q ih =>
    intro acc hacc
    simp only [List.foldl_cons]
    exact ih _ (pairwise_insertBeforeTs e hacc)

theorem sortQueue_perm (q : List Entry) : (sortQueue q).Perm q := by
  match q with
  | [] => simp [sortQueue]
  | [e] => simp [sortQueue]
  | e0 :: e1 :: rest =>
    simp only [sortQueue]
    by_cases h : e1.timestamp ≤ e0.timestamp
    · rw [if_pos h]
      refine (foldl_insertBeforeTs_perm _ _).trans ?_
      refine (((e0 :: e1 :: (descRun e1 rest).1).reverse_perm).append_right _).trans ?_
      have heq : (e0 :: e1 :: (descRun e1 rest).1) ++ (descRun e1 rest).2 =
          e0 :: e1 :: rest := by
        simp [descRun_split e1 rest]
      exact List.Perm.of_eq heq
    · rw [if_neg h]
      refine (foldl_insertBeforeTs_perm _ _).trans ?_
      have heq : (e0 :: e1 :: (ascRun e1 rest).1) ++ (ascRun e1 rest).2 =
          e0 :: e1 :: rest := by
        simp [ascRun_split e1 rest]
      exact List.Perm.of_eq heq

theorem sortQueue_pairwise (q : List Entry) :
    (sortQueue q).Pairwise (fun a b => a.timestamp ≤ b.timestamp) := by
  match q with
  | [] => simp [sortQueue]
  | [e] => simp [sortQueue]
  | e0 :: e1 :: rest =>
    simp only [sortQueue]
    by_cases h : e1.timestamp ≤ e0.timestamp
    · rw [if_pos h]
      refine foldl_insertBeforeTs_pairwise _ _ ?_
      rw [List.pairwise_reverse]
      have hchain : List.Chain (fun a b => b.timestamp ≤ a.timestamp) e0
          (e1 :: (descRun e1 rest).1) :=
        List.Chain.cons h (descRun_chain e1 rest)
      exact chain_pairwise (fun a b => b.timestamp ≤ a.timestamp)
        (fun a b c hab hbc => le_trans hbc hab) e0 _ hchain
    · rw [if_neg h]
      push_neg at h
      refine foldl_insertBeforeTs_pairwise _ _ ?_
      have hchain : List.Chain (fun a b => a.timestamp < b.timestamp) e0
          (e1 :: (ascRun e1 rest).1) :=
        List.Chain.cons h (ascRun_chain e1 rest)
      have hlt := chain_pairwise (fun a b => a.timestamp < b.timestamp)
        (fun a b c hab hbc => lt_trans hab hbc) e0 _ hchain
      exact hlt.imp (fun hab => le_of_lt hab)

theorem client_of_readyState_one {st : SState} (h : readyState st = some 1) :
    st.client = some ⟨1⟩ := by
  unfold readyState at h
  cases hc : st.client with
  | none => rw [hc] at h; simp at h
  | some c =>
    rw [hc] at h
    simp at h
    cases c
    simp_all

theorem send_open (env : Env) (now d : Nat) {st : SState}
    (h : st.client = some ⟨1⟩) :
    (send env now d st).client = st.client ∧
    (send env now d st).queue = st.queue ∧
    (send env now d st).options = st.options ∧
    (send env now d st).dispatched = st.dispatched ++ [d] := by
  simp only [send, h]
  cases hck : st.options.chunkSize with
  | none => simp
  | some ck =>
    by_cases h0 : ck = 0
    · simp [h0]
    · by_cases hsz :
        byteLength (serializePayload env st.options d) ≤ ck * 1024 <;>
        simp [h0, hsz]

theorem foldl_send_open (env : Env) (now : Nat) (l : List Entry) :
    ∀ st : SState, st.client = some ⟨1⟩ →
      (l.foldl (fun st m => send env now m.data st) st).client = some ⟨1⟩ ∧
      (l.foldl (fun st m => send env now m.data st) st).queue = st.queue ∧
      (l.foldl (fun st m => send env now m.data st) st).dispatched =
        st.dispatched ++ l.map (·.data) := by
  induction l with
  | nil => intro st h; simpa using h
  | cons e l ih =>
    intro st h
    simp only [List.foldl_cons]
    obtain ⟨hcl, hq, hopt, hd⟩ := send_open env now e.data h
    obtain ⟨ihc, ihq, ihd⟩ := ih (send env now e.data st) (hcl.trans h)
    refine ⟨ihc, ihq.trans hq, ?_⟩
    rw [ihd, hd]
    simp

theorem splitChunksAux_length (m : Nat) (hm : 0 < m) :
    ∀ (fuel : Nat) (s : JStr), s.length ≤ fuel →
      (splitChunksAux m fuel s).length = (s.length + m - 1) / m := by
  intro fuel
  induction fuel with
  | zero =>
    intro s hs
    have h0 : s = [] := List.eq_nil_of_length_eq_zero (by omega)
    subst h0
    simp [splitChunksAux]
    exact (Nat.div_eq_of_lt (by omega)).symm
  | succ fuel ih =>
    intro s hs
    cases s with
    | nil =>
      simp [splitChunksAux]
      exact (Nat.div_eq_of_lt (by omega)).symm
    | cons c cs =>
      simp only [splitChunksAux, List.length_cons, List.length_drop]
      rw [ih _ (by simp only [List.length_drop, List.length_cons] at *; omega)]
      simp only [List.length_drop, List.length_cons]
      rcases le_or_lt (cs.length + 1) m with hle | hlt
      · have h1 : cs.length + 1 - m = 0 := by omega
        rw [h1]
        have h2 : (0 + m - 1) / m = 0 := Nat.div_eq_of_lt (by omega)
        have h3 : (cs.length + 1 + m - 1) / m = 1 :=
          Nat.div_eq_of_lt_le (by omega) (by omega)
        omega
      · have h1 : cs.length + 1 - m + m - 1 = cs.length := by omega
        have h2 : cs.length + 1 + m - 1 = cs.length + m := by omega
        rw [h1, h2, Nat.add_div_right _ hm]

theorem splitChunks_length (m : Nat) (hm : 0 < m) (s : JStr) :
    (splitChunks m s).length = (s.length + m - 1) / m := by
  unfold splitChunks
  rw [if_neg (by omega)]
  exact splitChunksAux_length m hm s.length s le_rfl

theorem strAppendAssoc (a b c : String) : a ++ b ++ c = a ++ (b ++ c) := by
  apply String.ext
  simp [String.data_append, List.append_assoc]

theorem appendParamsRest_eq (l : List (String × String)) :
    ∀ acc : String, appendParamsRest acc l =
      acc ++ String.join (l.map (fun kv => "&" ++ kv.1 ++ "=" ++ kv.2)) := by
  induction l with
  | nil =>
    intro acc
    apply String.ext
    simp [appendParamsRest, String.join, String.data_append]
  | cons kv rest ih =>
    intro acc
    simp only [appendParamsRest, List.map_cons, ih]
    apply String.ext
    simp [String.join_eq, String.data_append, List.append_assoc]

theorem appendParams_eq (hostname : String) (l : List (String × String)) :
    appendParams hostname l = hostname ++ querySerializedSpec l := by
  cases l with
  | nil =>
    apply String.ext
    simp [appendParams, querySerializedSpec, String.data_append]
  | cons kv rest =>
    simp only [appendParams, querySerializedSpec, appendParamsRest_eq]
    apply String.ext
    simp [String.data_append, List.append_assoc]

theorem send_preserves_timers (env : Env) (now d : Nat) (st : SState) :
    (send env now d st).reconnectInterval = st.reconnectInterval ∧
    (send env now d st).timeoutPending = st.timeoutPending ∧
    (send env now d st).lockConnect = st.lockConnect ∧
    (send env now d st).lockReConnect = st.lockReConnect := by
  unfold send
  cases hc : st.client with
  | none => by_cases h : st.options.offline = some true <;> simp [h]
  | some c =>
    by_cases h1 : c.readyState = 1
    · cases hck : st.options.chunkSize with
      | none => simp [h1, hck]
      | some ck =>
        by_cases h0 : ck = 0
        · simp [h1, hck, h0]
        · by_cases hsz :
            byteLength (serializePayload env st.options d) ≤ ck * 1024 <;>
            simp [h1, hck, h0, hsz]
    · by_cases h : st.options.offline = some true <;> simp [h1, h]

theorem foldl_send_preserves_timers (env : Env) (now : Nat) (l : List Entry) :
    ∀ st : SState,
      (l.foldl (fun st m => send env now m.data st) st).reconnectInterval =
        st.reconnectInterval ∧
      (l.foldl (fun st m => send env now m.data st) st).timeoutPending =
        st.timeoutPending := by
  induction l with
  | nil => intro st; exact ⟨rfl, rfl⟩
  | cons e l ih =>
    intro st
    simp only [List.foldl_cons]
    obtain ⟨h1, h2, _, _⟩ := send_preserves_timers env now e.data st
    obtain ⟨h3, h4⟩ := ih (send env now e.data st)
    exact ⟨h3.trans h1, h4.trans h2⟩

/-- A concrete environment for witnesses: payload `d` serializes to the
one-unit string `[d]`; the cipher transform is the identity. -/
def envX : Env := ⟨fun d => [d], fun _ str => str⟩

/-- The constructor's entry state (fields at their declared initial values,
options merged). -/
def initState (opts : SuperSocketOptions) : SState := { options := opts }

/-- C1 counterexample input: two sends enqueued in the same millisecond
(equal `Date.now()` timestamps), in insertion order data 10 then data 20. -/
def c1cex : SState :=
  { options := defaultOptions
    client := some ⟨1⟩
    queue := [⟨10, 5⟩, ⟨20, 5⟩] }

set_option maxRecDepth 100000 in
/-- C1 counterexample: the queue holds two entries with EQUAL enqueue
timestamps, inserted as data 10 then data 20; the flush sort — the engine's
sort under a comparator that returns -1 for ties in both argument orders —
reverses the tied pair (the initial "descending" run is reversed), so the
open transition dispatches [20, 10]: ties are NOT delivered in insertion
order as the claim states. -/
theorem c1_counterexample :
    c1cex.queue.map (·.timestamp) = [5, 5] ∧
    c1cex.queue.map (·.data) = [10, 20] ∧
    (_onopen envX 9 c1cex).dispatched = [20, 10] := by decide

/-- C1 (amended): for sends issued while the connection is not open (offline
queueing enabled) the entries are appended to the queue, and on the open
transition the flush dispatches each queued payload to the transport path
exactly once — the dispatch order is a permutation of the queue (none lost,
none duplicated) and non-decreasing in enqueue timestamp; the relative order
of entries with equal timestamps is NOT insertion order (the sort comparator
never returns 0, so ECMA-262 leaves tie order implementation-defined, and on
the library's Node/V8 runtime ties come out reversed — see the
counterexample); the queue is empty afterwards. -/
theorem c1_offline_queue_flush (env : Env) (now : Nat) (s : SState)
    (hopen : readyState s = some 1) :
    (_onopen env now s).dispatched =
      s.dispatched ++ (sortQueue s.queue).map (·.data) ∧
    (_onopen env now s).queue = [] ∧
    (sortQueue s.queue).Perm s.queue ∧
    (sortQueue s.queue).Pairwise (fun a b => a.timestamp ≤ b.timestamp) ∧
    (∀ (d tm : Nat) (st : SState), readyState st ≠ some 1 →
      st.options.offline = some true →
      (send env tm d st).queue = st.queue ++ [⟨d, tm⟩] ∧
      (send env tm d st).dispatched = st.dispatched) := by
  have hcl := client_of_readyState_one hopen
  have key : (_onopen env now s).dispatched =
      s.dispatched ++ (sortQueue s.queue).map (·.data) ∧
      (_onopen env now s).queue = [] := by
    unfold _onopen
    by_cases hq : s.queue = []
    · simp [hq, sortQueue]
    · rw [if_neg hq]
      obtain ⟨hc2, hq2, hd2⟩ := foldl_send_open env now (sortQueue s.queue)
        { s with lockConnect := false, lockReConnect := false,
                 totalRetry := 0, reconnectInterval := none,
                 queue := sortQueue s.queue } hcl
      exact ⟨hd2, rfl⟩
  refine ⟨key.1, key.2, sortQueue_perm _, sortQueue_pairwise _, ?_⟩
  intro d tm st hrs hoff
  unfold send
  cases hc : st.client with
  | none => simp [hoff]
  | some c =>
    have h1 : c.readyState ≠ 1 := by
      intro h
      exact hrs (by simp [readyState, hc, h])
    simp [h1, hoff]

/-- Flush-example state for the C1 witness: three queued entries, two of
them with the same timestamp (V8's sort delivers the tied pair reversed). -/
def c1state : SState :=
  { options := defaultOptions
    client := some ⟨1⟩
    queue := [⟨10, 5⟩, ⟨20, 3⟩, ⟨30, 5⟩] }

set_option maxRecDepth 100000 in
theorem c1_witness :
    (_onopen envX 9 c1state).dispatched = [20, 30, 10] ∧
    (_onopen envX 9 c1state).queue = [] ∧
    (sortQueue c1state.queue).map (·.timestamp) = [3, 5, 5] := by
  obtain ⟨h1, h2, _, _, _⟩ :=
    c1_offline_queue_flush envX 9 c1state (by decide)
  refine ⟨?_, h2, by decide⟩
  rw [h1]
  decide

/-- State for the C2 failing input: the open handler runs while the socket
has already dropped back to CLOSED (readyState 3), with one queued entry and
offline queueing on. -/
def c2state : SState :=
  { options := defaultOptions
    client := some ⟨3⟩
    queue := [⟨7, 5⟩] }

set_option maxRecDepth 100000 in
/-- C2: evaluation of the code at a failing input. The flush's own re-entrant
send (the socket is not open, so `send` pushes `{data 7, timestamp 9}` onto
the very array being flushed — first conjunct), and the `this._queue = []`
that ends `_onopen` then discards it: the final queue is empty and nothing
reached the transport, so the entry appended during the flush is lost rather
than kept for the next flush. -/
theorem c2_flush_loses_reentrant_entry :
    (send envX 9 7 { c2state with queue := sortQueue c2state.queue }).queue =
      [⟨7, 5⟩, ⟨7, 9⟩] ∧
    (_onopen envX 9 c2state).queue = [] ∧
    (_onopen envX 9 c2state).frames = [] ∧
    (_onopen envX 9 c2state).dispatched = [] := by decide

/-- The serialized string of the C3 counterexample: 600 UTF-16 code units,
each two UTF-8 bytes wide (e.g. 600 non-ASCII characters), so 1200 bytes. -/
def c3str : JStr := List.replicate 600 2

/-- Environment serializing the counterexample payload to `c3str`. -/
def c3env : Env := ⟨fun _ => c3str, fun _ str => str⟩

/-- Open-socket state with `chunkSize = 1` (KB) for the C3 counterexample. -/
def c3state : SState :=
  { options := { defaultOptions with chunkSize := some 1 }
    client := some ⟨1⟩ }

set_option maxRecDepth 100000 in
/-- C3 counterexample: a 1200-byte, 600-code-unit serialized payload with
chunkSize 1 KB triggers chunking (1200 > 1024), but the transport receives 1
envelope, not `ceil(1200 / 1024) = 2`: `_splitStringBySize` slices by
`substr`, which counts UTF-16 code units, while the size gate counts UTF-8
bytes. -/
theorem c3_counterexample :
    1024 < byteLength (serializePayload c3env c3state.options 42) ∧
    (send c3env 5 42 c3state).frames.length = 1 ∧
    (byteLength (serializePayload c3env c3state.options 42) + 1 * 1024 - 1) /
      (1 * 1024) = 2 := by decide

/-- C3 (amended): when the serialized (post-cipher) byte size exceeds
`chunkSize` KB, the transport receives exactly
`ceil(strLength / (chunkSize * 1024))` envelopes — `strLength` being the
string's length in UTF-16 code units (the byte size only gates whether
chunking triggers) — all sharing the single chunkId generated for the call,
each carrying the total envelope count, with indices covering
`0..nbChunks-1` exactly once each, in order. -/
theorem c3_chunk_envelopes (env : Env) (now d : Nat) (s : SState)
    (k : Nat) (str : JStr)
    (hstr : serializePayload env s.options d = str)
    (hclient : s.client = some ⟨1⟩) (hframes : s.frames = [])
    (hck : s.options.chunkSize = some k) (hk : 0 < k)
    (hbig : k * 1024 < byteLength str) :
    (send env now d s).frames.length =
      (str.length + k * 1024 - 1) / (k * 1024) ∧
    (∀ f ∈ (send env now d s).frames, ∃ c i,
      f = Frame.chunkEnv c i now (send env now d s).frames.length) ∧
    (send env now d s).frames.map Frame.idx =
      List.range (send env now d s).frames.length := by
  have hk0 : k ≠ 0 := by omega
  have hnle : ¬ byteLength str ≤ k * 1024 := by omega
  have hsend : (send env now d s).frames =
      (splitChunks (k * 1024) str).enum.map
        (fun p => Frame.chunkEnv p.2 p.1 now (splitChunks (k * 1024) str).length) := by
    unfold send
    rw [hclient]
    simp only [hck, hstr, _splitStringBySize, hframes]
    simp only [if_true]
    rw [if_neg hk0, if_neg hnle]
    simp
  have hlen : (send env now d s).frames.length =
      (str.length + k * 1024 - 1) / (k * 1024) := by
    rw [hsend, List.length_map, List.enum_length,
      splitChunks_length (k * 1024) (by omega) str]
  refine ⟨hlen, ?_, ?_⟩
  · intro f hf
    rw [hsend] at hf
    obtain ⟨p, hp, rfl⟩ := List.mem_map.mp hf
    refine ⟨p.2, p.1, ?_⟩
    rw [hsend, List.length_map, List.enum_length]
  · rw [hsend, List.map_map, List.length_map, List.enum_length]
    have : (Frame.idx ∘ fun p : Nat × JStr =>
        Frame.chunkEnv p.2 p.1 now (splitChunks (k * 1024) str).length) =
        Prod.fst := by
      funext p
      rfl
    rw [this, List.enum_map_fst]

/-- The serialized string of the C3 witness: 1030 single-byte code units. -/
def c3wstr : JStr := List.replicate 1030 1

/-- Environment serializing the witness payload to `c3wstr`. -/
def c3wenv : Env := ⟨fun _ => c3wstr, fun _ str => str⟩

/-- Open-socket state with `chunkSize = 1` (KB) for the C3 witness. -/
def c3wstate : SState :=
  { options := { defaultOptions with chunkSize := some 1 }
    client := some ⟨1⟩ }

set_option maxRecDepth 100000 in
theorem c3_witness :
    (send c3wenv 7 42 c3wstate).frames.length = 2 ∧
    (send c3wenv 7 42 c3wstate).frames.map Frame.idx = [0, 1] := by
  obtain ⟨h1, _, h3⟩ := c3_chunk_envelopes c3wenv 7 42 c3wstate 1 c3wstr
    rfl rfl rfl rfl (by decide) (by decide)
  refine ⟨?_, ?_⟩
  · rw [h1]; decide
  · rw [h3, h1]; decide

/-- C4: calling `connect()` (which runs `_connect`) while the connect lock is
held is a no-op: no second transport handle is created, the retry counter is
not incremented, and the state is unchanged. -/
theorem c4_connect_noop_when_locked (s : SState) (h : s.lockConnect = true) :
    _connect s = s := by
  simp [_connect, h]

/-- A locked, mid-attempt state for the C4 witness. -/
def c4state : SState :=
  { options := defaultOptions
    lockConnect := true
    client := some ⟨0⟩
    totalRetry := 1
    connectAttempts := 1 }

theorem c4_witness :
    c4state.lockConnect = true ∧ _connect c4state = c4state :=
  ⟨by decide, c4_connect_noop_when_locked c4state (by decide)⟩

/-- A state whose merged options configure `reconnectDelay = 500`. -/
def c5state : SState :=
  { options := { defaultOptions with reconnectDelay := some 500 } }

/-- C5: evaluation at the failing configuration. With `reconnectDelay`
configured to 500 ms, the historical `_reconnect` variant (part_002 lines
272-283 and part_003 lines 253-262) still schedules its repeating timer with
the literal period 1000 ms, while the current variant (part_002 lines
728-745) uses the configured 500 ms; the default delay is 1000. -/
theorem c5_retry_period :
    c5state.options.reconnectDelay = some 500 ∧
    (reconnectV1 c5state).reconnectInterval = some 1000 ∧
    (_reconnect c5state).reconnectInterval = some 500 ∧
    defaultOptions.reconnectDelay = some 1000 := by decide

/-- C6: with authentication configured (valid URL, scheme accepted), an auth
call resolving with status exactly 200 is followed by exactly one connection
attempt; any other resolved status, or a rejected call, yields zero attempts,
no client handle, no scheduled timer of any kind, and an undefined
readyState (the object can never connect on its own). -/
theorem c6_auth_gate (m : ModuleState) (u : URLParts)
    (userOpts : SuperSocketOptions) (out : AuthOutcome)
    (hauth : ((mergeOptions m userOpts).1).authenticate = some true)
    (hsec : ¬(((mergeOptions m userOpts).1).secureOnly = some true ∧
      u.scheme ≠ "wss")) :
    (out = .resolved 200 →
      (construct m (some u) userOpts out).1.connectAttempts = 1 ∧
      (construct m (some u) userOpts out).1.client = some ⟨0⟩ ∧
      (construct m (some u) userOpts out).1.totalRetry = 1) ∧
    (out ≠ .resolved 200 →
      (construct m (some u) userOpts out).1.connectAttempts = 0 ∧
      (construct m (some u) userOpts out).1.client = none ∧
      readyState (construct m (some u) userOpts out).1 = none ∧
      (construct m (some u) userOpts out).1.reconnectInterval = none ∧
      (construct m (some u) userOpts out).1.timeoutPending = false ∧
      (construct m (some u) userOpts out).1.pingInterval = none) := by
  have hauth' : (objectAssign m.defaults userOpts).authenticate = some true :=
    hauth
  have hsec' : ¬((objectAssign m.defaults userOpts).secureOnly = some true ∧
      u.scheme ≠ "wss") := hsec
  constructor
  · rintro rfl
    simp [construct, mergeOptions, if_neg hsec', hauth', _connect, readyState]
  · intro hne
    cases out with
    | rejected =>
      simp [construct, mergeOptions, if_neg hsec', hauth', readyState]
    | resolved st =>
      have hst : st ≠ 200 := fun h => hne (by rw [h])
      simp [construct, mergeOptions, if_neg hsec', hauth', hst, readyState]

/-- URL for the C6 witness. -/
def c6url : URLParts := { scheme := "wss", host := "localhost", port := some 1234 }

/-- Options for the C6 witness: authentication configured. -/
def c6opts : SuperSocketOptions := { authenticate := some true }

theorem c6_witness :
    (construct ⟨defaultOptions⟩ (some c6url) c6opts (.resolved 200)).1.connectAttempts = 1 ∧
    (construct ⟨defaultOptions⟩ (some c6url) c6opts (.resolved 401)).1.connectAttempts = 0 ∧
    readyState (construct ⟨defaultOptions⟩ (some c6url) c6opts (.resolved 401)).1 = none := by
  refine ⟨((c6_auth_gate ⟨defaultOptions⟩ c6url c6opts (.resolved 200)
    (by decide) (by decide)).1 rfl).1, ?_, ?_⟩
  · exact ((c6_auth_gate ⟨defaultOptions⟩ c6url c6opts (.resolved 401)
      (by decide) (by decide)).2 (by decide)).1
  · exact ((c6_auth_gate ⟨defaultOptions⟩ c6url c6opts (.resolved 401)
      (by decide) (by decide)).2 (by decide)).2.2.1

/-- C7: with `maxRetries = 0`, after the single (failed) first connection
attempt the retry loop's first tick finds `totalRetry = 1 > 0` and cancels
both intervals permanently without calling `_connect` again: exactly one
connection attempt in total. -/
theorem c7_maxretries_zero (opts : SuperSocketOptions)
    (h0 : opts.maxRetries = some 0)
    (hdr : opts.disableReconnect = some false) :
    (_connect (initState opts)).connectAttempts = 1 ∧
    (_onclose (setReadyState 3 (_connect (initState opts)))).reconnectInterval =
      some (opts.reconnectDelay.getD 0) ∧
    (reconnectTick (_onclose (setReadyState 3 (_connect (initState opts))))).connectAttempts = 1 ∧
    (reconnectTick (_onclose (setReadyState 3 (_connect (initState opts))))).totalRetry = 1 ∧
    (reconnectTick (_onclose (setReadyState 3 (_connect (initState opts))))).reconnectInterval = none ∧
    (reconnectTick (_onclose (setReadyState 3 (_connect (initState opts))))).pingInterval = none := by
  simp [initState, _connect, setReadyState, _onclose, _reconnect, reconnectTick,
    readyState, h0, hdr]

theorem c7_witness :
    (_connect (initState { defaultOptions with maxRetries := some 0 })).connectAttempts = 1 ∧
    (reconnectTick (_onclose (setReadyState 3
      (_connect (initState { defaultOptions with maxRetries := some 0 }))))).connectAttempts = 1 ∧
    (reconnectTick (_onclose (setReadyState 3
      (_connect (initState { defaultOptions with maxRetries := some 0 }))))).reconnectInterval = none := by
  obtain ⟨h1, _, h3, _, h5, _⟩ :=
    c7_maxretries_zero { defaultOptions with maxRetries := some 0 } rfl rfl
  exact ⟨h1, h3, h5⟩

/-- An Open state with the connection-timeout timer still pending and the
reconnect interval running, as left by a connect attempt that just opened. -/
def c8state : SState :=
  { options := defaultOptions
    client := some ⟨1⟩
    timeoutPending := true
    reconnectInterval := some 1000 }

/-- C8 counterexample: reaching Open does not cancel both timers — `_onopen`
clears the reconnect interval, but the connection-timeout `setTimeout` armed
by `_connect` has no stored handle and is still pending after the open
transition, so it will still fire. -/
theorem c8_counterexample :
    ¬((_onopen envX 0 c8state).timeoutPending = false ∧
      (_onopen envX 0 c8state).reconnectInterval = none) := by decide

/-- C8 (amended): on the open transition the reconnect interval is cancelled;
the connection-timeout timer is not cancelled and still fires, but when it
fires with the socket OPEN its guard (`readyState === 0`) makes it a no-op —
it merely consumes itself. -/
theorem c8_open_timers (env : Env) (now : Nat) (s : SState) :
    (_onopen env now s).reconnectInterval = none ∧
    (_onopen env now s).timeoutPending = s.timeoutPending ∧
    (∀ s' : SState, readyState s' = some 1 →
      connectionTimeoutFire s' = { s' with timeoutPending := false }) := by
  have key : (_onopen env now s).reconnectInterval = none ∧
      (_onopen env now s).timeoutPending = s.timeoutPending := by
    unfold _onopen
    by_cases hq : s.queue = []
    · simp [hq]
    · rw [if_neg hq]
      obtain ⟨h1, h2⟩ := foldl_send_preserves_timers env now (sortQueue s.queue)
        { s with lockConnect := false, lockReConnect := false,
                 totalRetry := 0, reconnectInterval := none,
                 queue := sortQueue s.queue }
      exact ⟨h1, h2⟩
  refine ⟨key.1, key.2, ?_⟩
  intro s' hs'
  unfold connectionTimeoutFire
  rw [if_neg (by rw [hs']; simp)]

theorem c8_witness :
    (_onopen envX 0 c8state).reconnectInterval = none ∧
    (_onopen envX 0 c8state).timeoutPending = true ∧
    connectionTimeoutFire (_onopen envX 0 c8state) =
      { (_onopen envX 0 c8state) with timeoutPending := false } := by
  obtain ⟨h1, h2, h3⟩ := c8_open_timers envX 0 c8state
  exact ⟨h1, h2, h3 _ (by decide)⟩

/-- The first caller's options for C9: it disables offline queueing. -/
def c9opts : SuperSocketOptions := { offline := some false }

/-- C9: `this._options = Object.assign(defaultOptions, options)` merges the
user options into the shared module-level defaults object in place: after a
construction the defaults ARE the merged record, so a second construction
whose caller omits an option inherits the first caller's value, and two
constructions with identical arguments need not yield identical effective
configurations. -/
theorem c9_shared_defaults_mutation :
    (∀ (m : ModuleState) (u1 : SuperSocketOptions),
      (mergeOptions m u1).2.defaults = (mergeOptions m u1).1) ∧
    (∀ (m : ModuleState) (u1 : SuperSocketOptions),
      (mergeOptions (mergeOptions m u1).2 {}).1 = (mergeOptions m u1).1) ∧
    (∀ (m : ModuleState) (u1 u2 : SuperSocketOptions), u2.offline = none →
      ((mergeOptions (mergeOptions m u1).2 u2).1).offline =
        ((mergeOptions m u1).1).offline) ∧
    (mergeOptions (mergeOptions ⟨defaultOptions⟩ c9opts).2 {}).1 ≠
      (mergeOptions ⟨defaultOptions⟩ {}).1 := by
  refine ⟨fun m u1 => rfl, fun m u1 => rfl, ?_, by decide⟩
  intro m u1 u2 h2
  simp only [mergeOptions, objectAssign]
  rw [h2]
  simp [optAssign]

theorem c9_witness :
    ((mergeOptions (mergeOptions ⟨defaultOptions⟩ c9opts).2 {}).1).offline =
      some false := by
  have h := c9_shared_defaults_mutation.2.2.1 ⟨defaultOptions⟩ c9opts {} rfl
  rw [h]
  decide

/-- C10: for every construction whose URL parses and passes the secure-scheme
check, the computed `url` equals the URL's origin (`scheme://host[:port]`)
followed by the configured query parameters serialized as `?k1=v1&k2=v2...`,
appended with no separating slash; the input URL's path, query string and
fragment are discarded (the second conjunct: they do not influence the
result). -/
theorem c10_url_composition (m : ModuleState) (u : URLParts)
    (userOpts : SuperSocketOptions) (out : AuthOutcome)
    (hsec : ¬(((mergeOptions m userOpts).1).secureOnly = some true ∧
      u.scheme ≠ "wss")) :
    (construct m (some u) userOpts out).1.url =
      origin u ++
        querySerializedSpec (((mergeOptions m userOpts).1).queryParams.getD []) ∧
    (∀ p q f, construct m (some u) userOpts out =
      construct m (some { u with path := p, query := q, fragment := f })
        userOpts out) := by
  have hsec' : ¬((objectAssign m.defaults userOpts).secureOnly = some true ∧
      u.scheme ≠ "wss") := hsec
  constructor
  · have hurl : (construct m (some u) userOpts out).1.url =
        appendParams (origin u)
          ((objectAssign m.defaults userOpts).queryParams.getD []) := by
      cases out with
      | rejected =>
        by_cases hauth :
            (objectAssign m.defaults userOpts).authenticate = some true <;>
          simp [construct, mergeOptions, if_neg hsec', hauth, _connect]
      | resolved st =>
        by_cases hauth :
            (objectAssign m.defaults userOpts).authenticate = some true <;>
          by_cases hst : st = 200 <;>
          simp [construct, mergeOptions, if_neg hsec', hauth, hst, _connect]
    rw [hurl, appendParams_eq]
    rfl
  · intro p q f
    rfl

/-- URL for the C10 witness: carries a path, a query string and a fragment,
all of which must be discarded. -/
def c10url : URLParts :=
  { scheme := "wss", host := "localhost", port := some 1234,
    path := "/chat", query := some "old=1", fragment := some "top" }

/-- Options for the C10 witness: two query parameters. -/
def c10opts : SuperSocketOptions :=
  { queryParams := some [("foo", "bar"), ("baz", "qux")] }

theorem c10_witness :
    (construct ⟨defaultOptions⟩ (some c10url) c10opts .rejected).1.url =
      "wss://localhost:1234?foo=bar&baz=qux" := by
  have h := c10_url_composition ⟨defaultOptions⟩ c10url c10opts .rejected
    (by decide)
  rw [h.1]
  decide

end SuperSocket
